import Mathlib

/-!
Shallow embedding of the inventory-audit reconciliation engine
(`src/utils/data_processor.py` and `src/utils/file_handler.py` of
salman7420/inventory-audit-tool).

A pandas DataFrame is modelled as a `Table`: an ordered list of column
names and an ordered list of rows, each row an association list from
column name to an optional string (`none` models a null/NaN cell).
Looking up a column absent from a row yields `none`, mirroring how the
cleaned-and-projected frames behave for the operations the engine uses.
-/

namespace InventoryAudit

/-- A cell value: `none` models pandas NaN / null, `some s` a string value. -/
abbrev Cell := Option String

/-- A row: ordered association list from column name to cell value. -/
abbrev Row := List (String × Cell)

/-- Cell lookup in a row; absent columns read as null, matching how the
engine's derived frames behave (all frames it indexes into have passed
column validation). -/
def getCell (r : Row) (c : String) : Cell :=
  match r.find? (fun p => p.1 = c) with
  | some p => p.2
  | none => none

/-- A DataFrame: ordered column list plus ordered row list. -/
structure Table where
  cols : List String
  rows : List Row
deriving DecidableEq, Repr

/-- The `Label No` cell of a row. -/
def labelOf (r : Row) : Cell := getCell r "Label No"

/-! ### Report Cleaner — `DataProcessor.clean_report_file` -/

/-- `columns_to_keep` of `clean_report_file` (data_processor.py lines 24-27). -/
def columns_to_keep : List String :=
  ["Label No", "Old BarCode No", "Item Name", "Gross Wt.", "Net Wt.", "Location", "Remark"]

/-- Projection of a row to a column list, as pandas `df[available_cols]`:
the result has exactly those columns, in the given order. -/
def projectRow (cs : List String) (r : Row) : Row :=
  cs.map (fun c => (c, getCell r c))

/-- `DataProcessor.clean_report_file` (data_processor.py lines 8-39):
keep rows whose `Stock Menu` equals `"Found"`, project to the available
canonical columns, then drop rows whose `Label No` is null or the empty
string. -/
def clean_report_file (t : Table) : Table :=
  let found := t.rows.filter (fun r => getCell r "Stock Menu" = some "Found")
  let available := columns_to_keep.filter (fun c => c ∈ t.cols)
  let projected := found.map (projectRow available)
  let notNull := projected.filter (fun r => (labelOf r).isSome)
  let notEmpty := notNull.filter (fun r => labelOf r ≠ some "")
  ⟨available, notEmpty⟩

/-! ### Schema Validator — `FileValidator` (file_handler.py)

The python validators return `(bool, message)`; each distinct failure
message is modelled by one constructor. -/

/-- Validation failure outcomes, one per distinct message the python
validators can return:
* `emptyInput` — "File is empty or could not be read"
* `missingLabelNo` — "Missing required column: Label No" (stock only)
* `missingColumns cs` — "Missing required columns: " joined over `cs`
* `noFoundItems` — "No Found items in Stock Menu column" (reports only)
* `labelNoEmpty` — "Label No column has no values" -/
inductive ValidationError
  | emptyInput
  | missingLabelNo
  | missingColumns (cs : List String)
  | noFoundItems
  | labelNoEmpty
deriving DecidableEq, Repr

/-- Which columns a validation error explicitly names as missing. -/
def ValidationError.namedCols : ValidationError → List String
  | .missingLabelNo => ["Label No"]
  | .missingColumns cs => cs
  | _ => []

/-- Whether an error is one of the spec's `NoUsableRows` outcomes. -/
def ValidationError.isNoUsableRows : ValidationError → Bool
  | .noFoundItems => true
  | .labelNoEmpty => true
  | _ => false

/-- Stock-file required columns beyond `Label No` (file_handler.py lines 45-46). -/
def stock_required_cols : List String :=
  ["Item Name", "Metal ID", "Gross Wt.", "Net Wt.", "Pcs", "Location", "Old BarCode No", "Voucher Date"]

/-- Report-file required columns (file_handler.py line 73). -/
def report_required_cols : List String :=
  ["Stock Menu", "Label No", "Item Name", "Location"]

/-- `FileValidator.validate_stock_file` (file_handler.py lines 27-56).
`df.empty` is modelled as having no rows; `Label No` is tested for
presence by itself before the remaining required columns are collected;
`df['Label No'].isna().all()` is every row's `Label No` cell being null. -/
def validate_stock_file (t : Table) : Except ValidationError Unit :=
  if t.rows.isEmpty then .error .emptyInput
  else if "Label No" ∉ t.cols then .error .missingLabelNo
  else
    let missing := stock_required_cols.filter (fun c => c ∉ t.cols)
    if missing ≠ [] then .error (.missingColumns missing)
    else if t.rows.all (fun r => labelOf r = none) then .error .labelNoEmpty
    else .ok ()

/-- `FileValidator.validate_report_file` (file_handler.py lines 59-89).
All four required columns are collected together; then the table must
contain a `Stock Menu == "Found"` row; then `Label No` must not be
entirely null. -/
def validate_report_file (t : Table) : Except ValidationError Unit :=
  if t.rows.isEmpty then .error .emptyInput
  else
    let missing := report_required_cols.filter (fun c => c ∉ t.cols)
    if missing ≠ [] then .error (.missingColumns missing)
    else if (t.rows.filter (fun r => getCell r "Stock Menu" = some "Found")).isEmpty then
      .error .noFoundItems
    else if t.rows.all (fun r => labelOf r = none) then .error .labelNoEmpty
    else .ok ()

/-! ### Cross-Source Merger — `DataProcessor.merge_audit_reports` -/

/-- Adding the `Source` column (data_processor.py lines 58-59): appended
as a new last column with the same value in every row. -/
def addSource (src : String) (t : Table) : Table :=
  ⟨t.cols ++ ["Source"], t.rows.map (fun r => r ++ [("Source", some src)])⟩

/-- Column list of `pd.concat`: first frame's columns, then the second
frame's columns not already present. -/
def concatCols (cs ds : List String) : List String :=
  cs ++ ds.filter (fun c => c ∉ cs)

/-- Keep-first deduplication by a key, scanning left to right with the
set of already-seen keys: the semantics of pandas `drop_duplicates`
with `keep='first'`, and (with `key = id`) of `.unique()` on a column. -/
def firstOccAux {α : Type} (key : α → Cell) (seen : List Cell) : List α → List α
  | [] => []
  | a :: l =>
    if key a ∈ seen then firstOccAux key seen l
    else a :: firstOccAux key (key a :: seen) l

/-- Number of rows in `rows` whose `Label No` equals `c` (pandas
`duplicated`/`isin`/merge key matching all treat nulls as equal to nulls,
as does equality on `Cell`). -/
def labelCount (rows : List Row) (c : Cell) : Nat :=
  (rows.map labelOf).count c

/-- Ascending order on label cells used by `sort_values('Label No')`:
string order on values, nulls last (pandas default `na_position='last'`). -/
def cellLE (a b : Cell) : Bool :=
  match a, b with
  | none, none => true
  | none, some _ => false
  | some _, none => true
  | some s, some t => s ≤ t

/-- Ordered insertion for the sorting model. -/
def insertLE {α : Type} (le : α → α → Bool) (a : α) : List α → List α
  | [] => [a]
  | b :: l => if le a b then a :: b :: l else b :: insertLE le a l

/-- Insertion sort. `sort_values('Label No')` is modelled as a sort by
ascending label. The python call uses pandas' default sort kind
(`quicksort`), which fixes the same multiset and the same ascending
label order but does not promise an order among rows with equal labels;
this model realizes one concrete such order (the stable one). -/
def sortLE {α : Type} (le : α → α → Bool) (l : List α) : List α :=
  l.foldr (insertLE le) []

/-- Result bundle of `merge_audit_reports` (data_processor.py lines 78-85). -/
structure MergeResult where
  combined_all : Table
  unique_items : Table
  duplicates : Table
  duplicate_labels : List Cell
  num_duplicates : Nat
  total_scanned : Nat
  unique_count : Nat
deriving Repr

/-- `DataProcessor.merge_audit_reports` (data_processor.py lines 41-85):
clean both reports, tag each with its `Source`, concatenate, collect the
labels occurring at least twice (`duplicated(keep=False)` + `.unique()`),
extract and sort the duplicate rows, and deduplicate by first occurrence. -/
def merge_audit_reports (barcode_df label_df : Table) : MergeResult :=
  let barcode_clean := addSource "Old Barcode Report" (clean_report_file barcode_df)
  let label_clean := addSource "Label Number Report" (clean_report_file label_df)
  let combinedRows := barcode_clean.rows ++ label_clean.rows
  let combined : Table := ⟨concatCols barcode_clean.cols label_clean.cols, combinedRows⟩
  let duplicate_labels :=
    firstOccAux id []
      ((combinedRows.filter (fun r => 2 ≤ labelCount combinedRows (labelOf r))).map labelOf)
  let duplicatesRows := combinedRows.filter (fun r => labelOf r ∈ duplicate_labels)
  let duplicatesSorted := sortLE (fun r s => cellLE (labelOf r) (labelOf s)) duplicatesRows
  let uniqueRows := firstOccAux labelOf [] combinedRows
  { combined_all := combined
    unique_items := ⟨combined.cols, uniqueRows⟩
    duplicates := ⟨combined.cols, duplicatesSorted⟩
    duplicate_labels := duplicate_labels
    num_duplicates := duplicate_labels.length
    total_scanned := combinedRows.length
    unique_count := uniqueRows.length }

/-! ### Stock Reconciler — `DataProcessor.compare_with_stock` -/

/-- Scalar statistics of `compare_with_stock` (data_processor.py lines 128-134). -/
structure CompareStats where
  total_stock : Nat
  total_scanned : Nat
  found_in_stock : Nat
  missing : Nat
  expected_missing : Int
deriving Repr, DecidableEq

/-- `DataProcessor.compare_with_stock` (data_processor.py lines 87-141).
`found_report` is the inner join of `stock` with `unique[['Label No']]`
on `Label No`: each stock row is emitted once per matching unique row,
in stock order, with the stock columns (the right side contributes only
the join key). `missing_report` is the left join filtered to
`left_only` with the indicator dropped: the stock rows with no match. -/
def compare_with_stock (stock_df unique_items_df : Table) (total_scanned : Nat) :
    Table × Table × CompareStats :=
  let found_rows :=
    stock_df.rows.flatMap (fun r => List.replicate (labelCount unique_items_df.rows (labelOf r)) r)
  let missing_rows :=
    stock_df.rows.filter (fun r => labelCount unique_items_df.rows (labelOf r) = 0)
  let found_report : Table := ⟨stock_df.cols, found_rows⟩
  let missing_report : Table := ⟨stock_df.cols, missing_rows⟩
  (found_report, missing_report,
    { total_stock := stock_df.rows.length
      total_scanned := total_scanned
      found_in_stock := found_rows.length
      missing := missing_rows.length
      expected_missing := (stock_df.rows.length : Int) - (total_scanned : Int) })

/-! ### Display Formatter — `DataProcessor.prepare_display_dataframe` -/

/-- `display_columns` of `prepare_display_dataframe` (data_processor.py lines 155-158). -/
def display_columns : List String :=
  ["Label No", "Item Name", "Metal ID", "Gross Wt.", "Net Wt.",
   "Pcs", "Location", "Old BarCode No", "Remark", "Voucher Date"]

/-- `fillna('')` on a row: null cells become the empty string. -/
def fillnaRow (r : Row) : Row :=
  r.map (fun p => (p.1, some (p.2.getD "")))

/-- `DataProcessor.prepare_display_dataframe` (data_processor.py lines 143-167):
project to the available display columns and blank the nulls. -/
def prepare_display_dataframe (t : Table) : Table :=
  let available := display_columns.filter (fun c => c ∈ t.cols)
  ⟨available, t.rows.map (fun r => fillnaRow (projectRow available r))⟩

/-! ### Pipeline — `DataProcessor.process_audit_data` -/

/-- Round-half-to-even to the nearest integer, the semantics of python's
builtin `round` (the python code rounds the value of a float expression;
the model computes over exact rationals). -/
def roundHalfEven (q : ℚ) : ℤ :=
  let f := ⌊q⌋
  let frac := q - f
  if frac < 1/2 then f
  else if 1/2 < frac then f + 1
  else if 2 ∣ f then f else f + 1

/-- Python `round(x, 2)`. -/
def round2 (q : ℚ) : ℚ := (roundHalfEven (q * 100) : ℚ) / 100

/-- Summary statistics assembled by `process_audit_data`
(data_processor.py lines 215-223). -/
structure AuditStats where
  total_stock : Nat
  total_scanned : Nat
  unique_found : Nat
  found_in_stock : Nat
  missing : Nat
  num_duplicates : Nat
  found_percentage : ℚ
deriving Repr, DecidableEq

/-- Result bundle of `process_audit_data` (data_processor.py lines 184-226). -/
structure ProcessResults where
  merged_found_items : Table
  duplicates : Table
  num_duplicates : Nat
  found_items : Table
  missing_items : Table
  duplicates_display : Table
  stats : AuditStats
deriving Repr

/-- `DataProcessor.process_audit_data` (data_processor.py lines 169-232):
merge the two reports, compare with stock, format the outputs, and
assemble the summary statistics, guarding the percentage against an
empty stock table. -/
def process_audit_data (stock_df barcode_df label_df : Table) : ProcessResults :=
  let merge_results := merge_audit_reports barcode_df label_df
  let compared := compare_with_stock stock_df merge_results.unique_items merge_results.total_scanned
  let found_report := compared.1
  let missing_report := compared.2.1
  let comparison_stats := compared.2.2
  let dup := merge_results.duplicates
  let duplicates_display : Table :=
    if dup.rows.isEmpty then ⟨[], []⟩
    else
      let dup_cols := ["Label No", "Item Name", "Location", "Source"].filter (fun c => c ∈ dup.cols)
      ⟨dup_cols, dup.rows.map (fun r => fillnaRow (projectRow dup_cols r))⟩
  { merged_found_items := merge_results.unique_items
    duplicates := merge_results.duplicates
    num_duplicates := merge_results.num_duplicates
    found_items := prepare_display_dataframe found_report
    missing_items := prepare_display_dataframe missing_report
    duplicates_display := duplicates_display
    stats :=
      { total_stock := comparison_stats.total_stock
        total_scanned := comparison_stats.total_scanned
        unique_found := merge_results.unique_count
        found_in_stock := comparison_stats.found_in_stock
        missing := comparison_stats.missing
        num_duplicates := merge_results.num_duplicates
        found_percentage :=
          if 0 < comparison_stats.total_stock then
            round2 ((comparison_stats.found_in_stock : ℚ) / (comparison_stats.total_stock : ℚ) * 100)
          else 0 } }

/-! ### Concrete tables used in scenario theorems and witnesses -/

/-- A stock row of Scenario A with the given label. -/
def stockRowA (l : String) : Row :=
  [("Label No", some l), ("Item Name", some ("Item " ++ l)), ("Location", some "Shelf")]

/-- Scenario A stock table: labels L1, L2, L3. -/
def stockA : Table :=
  ⟨["Label No", "Item Name", "Location"], [stockRowA "L1", stockRowA "L2", stockRowA "L3"]⟩

/-- A raw scan-report row marked Found with the given label. -/
def reportRow (l : String) : Row :=
  [("Stock Menu", some "Found"), ("Label No", some l),
   ("Item Name", some ("Item " ++ l)), ("Location", some "Shelf")]

/-- Scenario A old-barcode report: one Found row L1. -/
def barcodeA : Table :=
  ⟨["Stock Menu", "Label No", "Item Name", "Location"], [reportRow "L1"]⟩

/-- Scenario A label-number report: Found rows L1, L2. -/
def labelA : Table :=
  ⟨["Stock Menu", "Label No", "Item Name", "Location"], [reportRow "L1", reportRow "L2"]⟩

/-- A cleaned-and-tagged row of Scenario A as it appears in the combined table. -/
def combinedRowA (l src : String) : Row :=
  [("Label No", some l), ("Item Name", some ("Item " ++ l)),
   ("Location", some "Shelf"), ("Source", some src)]

/-! ### Helper lemmas -/

theorem firstOccAux_sublist {α : Type} (key : α → Cell) (seen : List Cell) (l : List α) :
    (firstOccAux key seen l).Sublist l := by
  induction l generalizing seen with
  | nil => simp [firstOccAux]
  | cons a l ih =>
    simp only [firstOccAux]
    split
    · exact (ih seen).cons a
    · exact (ih _).cons₂ a

theorem mem_map_key_firstOccAux {α : Type} (key : α → Cell) (seen : List Cell) (l : List α)
    (c : Cell) :
    c ∈ (firstOccAux key seen l).map key ↔ c ∈ l.map key ∧ c ∉ seen := by
  induction l generalizing seen with
  | nil => simp [firstOccAux]
  | cons a l ih =>
    simp only [firstOccAux]
    split
    · rename_i h
      rw [ih]
      have h' : c = key a → c ∈ seen := fun e => e ▸ h
      simp only [List.map_cons, List.mem_cons]
      tauto
    · rename_i h
      have h' : c = key a → c ∉ seen := fun e => e ▸ h
      simp only [List.map_cons, List.mem_cons, ih]
      tauto

theorem nodup_map_key_firstOccAux {α : Type} (key : α → Cell) (seen : List Cell) (l : List α) :
    ((firstOccAux key seen l).map key).Nodup := by
  induction l generalizing seen with
  | nil => simp [firstOccAux]
  | cons a l ih =>
    simp only [firstOccAux]
    split
    · exact ih seen
    · simp only [List.map_cons, List.nodup_cons]
      refine ⟨?_, ih _⟩
      rw [mem_map_key_firstOccAux]
      rintro ⟨-, hs⟩
      exact hs (List.mem_cons_self _ _)

theorem find?_firstOccAux {α : Type} (key : α → Cell) (seen : List Cell) (l : List α) (a : α)
    (ha : a ∈ firstOccAux key seen l) :
    key a ∉ seen ∧ l.find? (fun x => key x = key a) = some a := by
  induction l generalizing seen with
  | nil => simp [firstOccAux] at ha
  | cons b l ih =>
    simp only [firstOccAux] at ha
    split at ha
    · rename_i hb
      obtain ⟨hns, hfind⟩ := ih seen ha
      have hne : key b ≠ key a := fun h => hns (h ▸ hb)
      refine ⟨hns, ?_⟩
      rw [List.find?_cons_of_neg _ (by simpa using hne), hfind]
    · rename_i hb
      rcases List.mem_cons.mp ha with rfl | ha
      · exact ⟨hb, List.find?_cons_of_pos _ (by simp)⟩
      · obtain ⟨hns, hfind⟩ := ih (key b :: seen) ha
        have hne : key b ≠ key a := fun h => hns (h ▸ List.mem_cons_self _ _)
        refine ⟨fun h => hns (List.mem_cons_of_mem _ h), ?_⟩
        rw [List.find?_cons_of_neg _ (by simpa using hne), hfind]

theorem getCell_nil (c : String) : getCell [] c = none := rfl

theorem getCell_cons (c' : String) (v : Cell) (r : Row) (c : String) :
    getCell ((c', v) :: r) c = if c' = c then v else getCell r c := by
  by_cases h : c' = c
  · unfold getCell
    rw [List.find?_cons_of_pos _ (by simp [h])]
    simp [h]
  · unfold getCell
    rw [List.find?_cons_of_neg _ (by simp [h])]
    simp [h]

theorem getCell_projectRow (cs : List String) (r : Row) (c : String) :
    getCell (projectRow cs r) c = if c ∈ cs then getCell r c else none := by
  induction cs with
  | nil => simp [projectRow, getCell_nil]
  | cons c' cs ih =>
    simp only [projectRow, List.map_cons] at ih ⊢
    rw [getCell_cons]
    by_cases hc : c' = c
    · subst hc
      simp
    · rw [if_neg hc, ih]
      have hmem : c ∈ c' :: cs ↔ c ∈ cs := by
        simp only [List.mem_cons, or_iff_right_iff_imp]
        intro h
        exact absurd h.symm hc
      simp only [hmem]

theorem keys_projectRow (cs : List String) (r : Row) :
    (projectRow cs r).map Prod.fst = cs := by
  induction cs with
  | nil => rfl
  | cons c' cs ih =>
    simp only [projectRow, List.map_cons] at ih ⊢
    rw [ih]

theorem getCell_append_single (r : Row) (c : String) (v : Cell)
    (h : c ∉ r.map Prod.fst) : getCell (r ++ [(c, v)]) c = v := by
  unfold getCell
  rw [List.find?_append]
  have h1 : r.find? (fun p => p.1 = c) = none := by
    rw [List.find?_eq_none]
    intro p hp
    simp only [decide_eq_true_eq]
    intro hpc
    exact h (hpc ▸ List.mem_map_of_mem Prod.fst hp)
  rw [h1]
  simp

theorem count_le_one_of_nodup (c : Cell) (l : List Cell) (hl : l.Nodup) :
    l.count c ≤ 1 := by
  induction l with
  | nil => simp
  | cons x xs ih =>
    rcases List.nodup_cons.mp hl with ⟨hx, hxs⟩
    rw [List.count_cons]
    by_cases hxc : x = c
    · subst hxc
      have hz : xs.count x = 0 := List.count_eq_zero.mpr hx
      simp [hz]
    · have hb : (x == c) = false := by simpa using hxc
      simp [hb, ih hxs]

theorem labelCount_le_one_of_nodup (uniq : List Row)
    (h : (uniq.map labelOf).Nodup) (c : Cell) : labelCount uniq c ≤ 1 := by
  unfold labelCount
  exact count_le_one_of_nodup c _ h

theorem length_found_add_missing (uniq : List Row) (h : ∀ c, labelCount uniq c ≤ 1)
    (stock : List Row) :
    (stock.flatMap (fun r => List.replicate (labelCount uniq (labelOf r)) r)).length
      + (stock.filter (fun r => labelCount uniq (labelOf r) = 0)).length
      = stock.length := by
  induction stock with
  | nil => simp
  | cons r rows ih =>
    have hr := h (labelOf r)
    rw [List.flatMap_cons, List.length_append, List.length_replicate, List.filter_cons]
    by_cases h0 : labelCount uniq (labelOf r) = 0
    · rw [if_pos (by simp [h0])]
      simp only [List.length_cons]
      omega
    · rw [if_neg (by simp [h0])]
      simp only [List.length_cons]
      omega

theorem getCell_source_addSource_clean (src : String) (t : Table) (r : Row)
    (hr : r ∈ (addSource src (clean_report_file t)).rows) :
    getCell r "Source" = some src := by
  simp only [addSource, List.mem_map] at hr
  obtain ⟨q, hq, rfl⟩ := hr
  have hq' : ∃ raw, q = projectRow (columns_to_keep.filter (fun c => c ∈ t.cols)) raw := by
    simp only [clean_report_file] at hq
    have h1 := (List.mem_filter.mp hq).1
    have h2 := (List.mem_filter.mp h1).1
    obtain ⟨raw, _, rfl⟩ := List.mem_map.mp h2
    exact ⟨raw, rfl⟩
  obtain ⟨raw, rfl⟩ := hq'
  apply getCell_append_single
  rw [keys_projectRow]
  intro hmem
  have hck : "Source" ∈ columns_to_keep := (List.mem_filter.mp hmem).1
  exact absurd hck (by decide)

/-! ### Claim theorems -/

/-- C1: for every stock table and every unique-found table produced by the
merge step, the reconciler partitions the stock rows exactly: the inner-join
found report's row count plus the missing report's row count equals the
stock row count, for all inputs, including stock tables with duplicate
Label No values. -/
theorem claim_c1_reconciler_partitions_stock (stock a b : Table) :
    (compare_with_stock stock (merge_audit_reports a b).unique_items
        (merge_audit_reports a b).total_scanned).1.rows.length
      + (compare_with_stock stock (merge_audit_reports a b).unique_items
        (merge_audit_reports a b).total_scanned).2.1.rows.length
      = stock.rows.length := by
  have hnodup : ((merge_audit_reports a b).unique_items.rows.map labelOf).Nodup :=
    nodup_map_key_firstOccAux labelOf [] _
  have hle := labelCount_le_one_of_nodup _ hnodup
  exact length_found_add_missing _ hle stock.rows

/-- C2: Scenario A. With stock labels [L1, L2, L3], barcode-report cleaned
found rows [L1] and label-report cleaned found rows [L1, L2]: combined is
[L1 from the barcode source, L1 from the label source, L2 from the label
source]; the duplicate labels are exactly {L1}; unique keeps L1 from the
barcode source and L2 from the label source; totalScanned is 3; the found
report holds the stock rows for L1 and L2; the missing report holds the
stock row for L3; numDuplicates is 1. -/
theorem claim_c2_scenario_a :
    (merge_audit_reports barcodeA labelA).combined_all.rows =
      [combinedRowA "L1" "Old Barcode Report", combinedRowA "L1" "Label Number Report",
       combinedRowA "L2" "Label Number Report"] ∧
    (merge_audit_reports barcodeA labelA).duplicate_labels = [some "L1"] ∧
    (merge_audit_reports barcodeA labelA).unique_items.rows =
      [combinedRowA "L1" "Old Barcode Report", combinedRowA "L2" "Label Number Report"] ∧
    (merge_audit_reports barcodeA labelA).total_scanned = 3 ∧
    (compare_with_stock stockA (merge_audit_reports barcodeA labelA).unique_items
        (merge_audit_reports barcodeA labelA).total_scanned).1.rows =
      [stockRowA "L1", stockRowA "L2"] ∧
    (compare_with_stock stockA (merge_audit_reports barcodeA labelA).unique_items
        (merge_audit_reports barcodeA labelA).total_scanned).2.1.rows =
      [stockRowA "L3"] ∧
    (merge_audit_reports barcodeA labelA).num_duplicates = 1 :=
  ⟨rfl, rfl, rfl, rfl, rfl, rfl, rfl⟩

/-- C9: for every run, the summary's total stock count is the stock row
count, and foundPercentage is round(foundInStock / totalStock * 100, 2)
whenever totalStock is positive and 0 when totalStock is zero, so an
empty stock table never divides by zero. -/
theorem claim_c9_found_percentage_guarded (s a b : Table) :
    (process_audit_data s a b).stats.total_stock = s.rows.length ∧
    (process_audit_data s a b).stats.found_percentage =
      (if 0 < (process_audit_data s a b).stats.total_stock then
        round2 (((process_audit_data s a b).stats.found_in_stock : ℚ)
          / ((process_audit_data s a b).stats.total_stock : ℚ) * 100)
      else 0) :=
  ⟨rfl, rfl⟩

/-- A report table that passes validation although every Found row lacks a
label: the Found row's Label No is null and the only labelled row is not
Found. -/
def reportNoUsableFound : Table :=
  ⟨["Stock Menu", "Label No", "Item Name", "Location"],
   [[("Stock Menu", some "Found"), ("Label No", none),
     ("Item Name", some "A"), ("Location", some "X")],
    [("Stock Menu", some "Not Found"), ("Label No", some "X1"),
     ("Item Name", some "B"), ("Location", some "X")]]⟩

/-- C10: there is a report table that passes report validation yet cleans
to zero rows: validation only needs some Found row and some non-null
Label No anywhere, so a table whose only Found row has a null label while
only a non-Found row carries a label is accepted and contributes no
scanned rows. -/
theorem claim_c10_validation_allows_empty_clean :
    validate_report_file reportNoUsableFound = .ok () ∧
    (clean_report_file reportNoUsableFound).rows = [] :=
  ⟨rfl, rfl⟩

/-- C3: for every pair of input scan tables, the merge step's duplicate
labels are exactly the Label No values occurring at least twice anywhere
in the combined concatenation, with no label listed twice, and
numDuplicates is the cardinality of that set of labels, not the number of
duplicate rows. -/
theorem claim_c3_duplicate_labels (a b : Table) :
    (∀ c : Cell, c ∈ (merge_audit_reports a b).duplicate_labels ↔
      2 ≤ ((merge_audit_reports a b).combined_all.rows.map labelOf).count c) ∧
    (merge_audit_reports a b).duplicate_labels.Nodup ∧
    (merge_audit_reports a b).num_duplicates =
      (((merge_audit_reports a b).combined_all.rows.map labelOf).toFinset.filter
        (fun c => 2 ≤ ((merge_audit_reports a b).combined_all.rows.map labelOf).count c)).card := by
  set rows := (merge_audit_reports a b).combined_all.rows with hrows
  have hmem : ∀ c : Cell, c ∈ (merge_audit_reports a b).duplicate_labels ↔
      2 ≤ (rows.map labelOf).count c := by
    intro c
    have hfo :
        (merge_audit_reports a b).duplicate_labels =
          firstOccAux id []
            ((rows.filter (fun r => 2 ≤ labelCount rows (labelOf r))).map labelOf) := rfl
    rw [hfo]
    have h1 := mem_map_key_firstOccAux id []
      ((rows.filter (fun r => 2 ≤ labelCount rows (labelOf r))).map labelOf) c
    simp only [List.map_id, List.not_mem_nil, not_false_iff, and_true] at h1
    rw [h1]
    constructor
    · intro hc
      obtain ⟨r, hrf, rfl⟩ := List.mem_map.mp hc
      have := (List.mem_filter.mp hrf).2
      simpa [labelCount] using this
    · intro h2
      have hpos : 0 < (rows.map labelOf).count c := by omega
      have hc : c ∈ rows.map labelOf := List.count_pos_iff.mp hpos
      obtain ⟨r, hr, rfl⟩ := List.mem_map.mp hc
      refine List.mem_map.mpr ⟨r, List.mem_filter.mpr ⟨hr, ?_⟩, rfl⟩
      simpa [labelCount] using h2
  have hnodup : (merge_audit_reports a b).duplicate_labels.Nodup := by
    have := nodup_map_key_firstOccAux id []
      ((rows.filter (fun r => 2 ≤ labelCount rows (labelOf r))).map labelOf)
    simpa [List.map_id] using this
  refine ⟨hmem, hnodup, ?_⟩
  have hts : (merge_audit_reports a b).duplicate_labels.toFinset =
      (rows.map labelOf).toFinset.filter (fun c => 2 ≤ (rows.map labelOf).count c) := by
    apply Finset.ext
    intro c
    simp only [List.mem_toFinset, Finset.mem_filter, hmem c]
    constructor
    · intro h2
      exact ⟨List.count_pos_iff.mp (by omega), h2⟩
    · intro h
      exact h.2
  have hlen : (merge_audit_reports a b).num_duplicates =
      (merge_audit_reports a b).duplicate_labels.length := rfl
  rw [hlen, ← List.toFinset_card_of_nodup hnodup, hts]

/-- C4: for every pair of input scan tables, the merge step's unique
output is the combined sequence deduplicated by Label No keeping the
first occurrence in combined order: it is a subsequence of combined, its
Label No values are pairwise distinct, it covers exactly the labels of
combined, each of its rows is the first row of combined carrying its
label, and a row whose label also occurs in the old-barcode source always
comes from the old-barcode source. -/
theorem claim_c4_unique_keeps_first_occurrence (a b : Table) :
    (merge_audit_reports a b).unique_items.rows.Sublist
      (merge_audit_reports a b).combined_all.rows ∧
    ((merge_audit_reports a b).unique_items.rows.map labelOf).Nodup ∧
    (∀ c : Cell, c ∈ (merge_audit_reports a b).combined_all.rows.map labelOf ↔
      c ∈ (merge_audit_reports a b).unique_items.rows.map labelOf) ∧
    (∀ r ∈ (merge_audit_reports a b).unique_items.rows,
      (merge_audit_reports a b).combined_all.rows.find?
        (fun x => labelOf x = labelOf r) = some r) ∧
    (∀ r ∈ (merge_audit_reports a b).unique_items.rows,
      labelOf r ∈ (addSource "Old Barcode Report" (clean_report_file a)).rows.map labelOf →
        getCell r "Source" = some "Old Barcode Report") := by
  set B := (addSource "Old Barcode Report" (clean_report_file a)).rows with hB
  set L := (addSource "Label Number Report" (clean_report_file b)).rows with hL
  have hcomb : (merge_audit_reports a b).combined_all.rows = B ++ L := rfl
  have huniq : (merge_audit_reports a b).unique_items.rows =
      firstOccAux labelOf [] (B ++ L) := rfl
  refine ⟨?_, ?_, ?_, ?_, ?_⟩
  · rw [hcomb, huniq]
    exact firstOccAux_sublist labelOf [] _
  · rw [huniq]
    exact nodup_map_key_firstOccAux labelOf [] _
  · intro c
    rw [hcomb, huniq]
    have := mem_map_key_firstOccAux labelOf [] (B ++ L) c
    simpa using this.symm
  · intro r hr
    rw [huniq] at hr
    rw [hcomb]
    exact (find?_firstOccAux labelOf [] (B ++ L) r hr).2
  · intro r hr hlab
    rw [huniq] at hr
    have hfind : (B ++ L).find? (fun x => labelOf x = labelOf r) = some r :=
      (find?_firstOccAux labelOf [] (B ++ L) r hr).2
    obtain ⟨x, hx, hxl⟩ := List.mem_map.mp hlab
    have hBfind : ∃ y, B.find? (fun x => labelOf x = labelOf r) = some y := by
      rcases hfy : B.find? (fun x => labelOf x = labelOf r) with _ | y
      · rw [List.find?_eq_none] at hfy
        exact absurd (by simpa using hxl) (by simpa using hfy x hx)
      · exact ⟨y, rfl⟩
    obtain ⟨y, hy⟩ := hBfind
    rw [List.find?_append, hy, Option.or_some] at hfind
    have hyr : y = r := by injection hfind
    subst hyr
    exact getCell_source_addSource_clean _ _ _ (List.mem_of_find?_eq_some hy)

/-- C6: for every report table containing the required columns, the
cleaner's output is exactly the input rows whose Stock Menu equals the
literal string Found and whose Label No is neither null nor the empty
string, projected to the canonical columns that are present, in input
row order. -/
theorem claim_c6_cleaner_characterization (t : Table)
    (h : ∀ c ∈ report_required_cols, c ∈ t.cols) :
    (clean_report_file t).cols = columns_to_keep.filter (fun c => c ∈ t.cols) ∧
    (clean_report_file t).rows =
      (t.rows.filter (fun r =>
          getCell r "Stock Menu" = some "Found" ∧
          getCell r "Label No" ≠ none ∧ getCell r "Label No" ≠ some "")).map
        (projectRow (columns_to_keep.filter (fun c => c ∈ t.cols))) := by
  have havail : "Label No" ∈ columns_to_keep.filter (fun c => c ∈ t.cols) := by
    rw [List.mem_filter]
    refine ⟨by decide, ?_⟩
    have := h "Label No" (by decide)
    simpa using this
  refine ⟨rfl, ?_⟩
  show ((((t.rows.filter _).map _).filter _).filter _) = _
  rw [List.filter_map, List.filter_map, List.filter_filter, List.filter_filter]
  congr 1
  apply List.filter_congr
  intro r _
  simp only [Function.comp, labelOf, getCell_projectRow, if_pos havail]
  cases hsm : getCell r "Stock Menu" <;> cases hlab : getCell r "Label No" <;>
    simp [hsm, hlab, Bool.and_comm]

/-- Witness for C6 at the Scenario A barcode report. -/
theorem claim_c6_witness :
    (∀ c ∈ report_required_cols, c ∈ barcodeA.cols) ∧
    ((clean_report_file barcodeA).cols = columns_to_keep.filter (fun c => c ∈ barcodeA.cols) ∧
     (clean_report_file barcodeA).rows =
       (barcodeA.rows.filter (fun r =>
           getCell r "Stock Menu" = some "Found" ∧
           getCell r "Label No" ≠ none ∧ getCell r "Label No" ≠ some "")).map
         (projectRow (columns_to_keep.filter (fun c => c ∈ barcodeA.cols)))) :=
  ⟨by decide, claim_c6_cleaner_characterization barcodeA (by decide)⟩

/-- A stock row with every required column, carrying the given label cell. -/
def fullStockRow (l : Cell) : Row :=
  [("Label No", l), ("Item Name", some "A"), ("Metal ID", some "G"),
   ("Gross Wt.", some "1"), ("Net Wt.", some "1"), ("Pcs", some "1"),
   ("Location", some "X"), ("Old BarCode No", some "B"), ("Voucher Date", some "D")]

/-- Column list of a complete stock table. -/
def fullStockCols : List String :=
  ["Label No", "Item Name", "Metal ID", "Gross Wt.", "Net Wt.",
   "Pcs", "Location", "Old BarCode No", "Voucher Date"]

/-- A stock table whose Label No column holds only empty strings. -/
def stockEmptyStringLabels : Table :=
  ⟨fullStockCols, [fullStockRow (some "")]⟩

/-- A complete stock table with one labelled row. -/
def stockAllCols : Table :=
  ⟨fullStockCols, [fullStockRow (some "L1")]⟩

/-- C7 counterexample: a stock table whose Label No column consists
entirely of empty strings passes stock validation, although the claim
says validation must fail with NoUsableRows when the Label No column is
entirely empty or null. -/
theorem claim_c7_counterexample :
    validate_stock_file stockEmptyStringLabels = .ok () ∧
    stockEmptyStringLabels.rows ≠ [] ∧
    (∀ r ∈ stockEmptyStringLabels.rows, getCell r "Label No" = some "") :=
  ⟨rfl, by decide, by decide⟩

/-- C7 amended: for report tables that are nonempty and have all
required columns, validation fails with a NoUsableRows outcome exactly
when no row has Stock Menu equal to Found or the Label No column is
entirely null; for nonempty stock tables with all required columns it
fails with a NoUsableRows outcome exactly when the Label No column is
entirely null. Empty-string Label No values count as present values:
only nulls trigger the check. -/
theorem claim_c7_amended_no_usable_rows (t s : Table)
    (ht1 : t.rows ≠ []) (ht2 : ∀ c ∈ report_required_cols, c ∈ t.cols)
    (hs1 : s.rows ≠ []) (hs2 : "Label No" ∈ s.cols)
    (hs3 : ∀ c ∈ stock_required_cols, c ∈ s.cols) :
    ((∃ e, validate_report_file t = .error e ∧ e.isNoUsableRows = true) ↔
      ((t.rows.filter (fun r => getCell r "Stock Menu" = some "Found")) = [] ∨
        ∀ r ∈ t.rows, labelOf r = none)) ∧
    ((∃ e, validate_stock_file s = .error e ∧ e.isNoUsableRows = true) ↔
      ∀ r ∈ s.rows, labelOf r = none) := by
  constructor
  · have hne : t.rows.isEmpty = false := List.isEmpty_eq_false.mpr ht1
    have hmiss : report_required_cols.filter (fun c => c ∉ t.cols) = [] := by
      rw [List.filter_eq_nil_iff]
      intro c hc
      simpa using ht2 c hc
    simp only [validate_report_file, hne, hmiss]
    by_cases hf : t.rows.filter (fun r => getCell r "Stock Menu" = some "Found") = []
    · simp only [hf]
      simp [ValidationError.isNoUsableRows]
    · have hfe : (t.rows.filter
          (fun r => decide (getCell r "Stock Menu" = some "Found"))).isEmpty = false := by
        rw [List.isEmpty_eq_false]
        exact hf
      simp only [hfe]
      by_cases hall : ∀ r ∈ t.rows, labelOf r = none
      · have hb : t.rows.all (fun r => labelOf r = none) = true := by
          rw [List.all_eq_true]
          intro r hr
          simpa using hall r hr
        simp only [hb, if_true]
        simp [ValidationError.isNoUsableRows, hf]
        exact hall
      · have hb : t.rows.all (fun r => labelOf r = none) = false := by
          rw [Bool.eq_false_iff]
          intro hcontra
          rw [List.all_eq_true] at hcontra
          exact hall (fun r hr => by simpa using hcontra r hr)
        simp [hb, hall, hf, ValidationError.isNoUsableRows]
  · have hne : s.rows.isEmpty = false := List.isEmpty_eq_false.mpr hs1
    have hmiss : stock_required_cols.filter (fun c => c ∉ s.cols) = [] := by
      rw [List.filter_eq_nil_iff]
      intro c hc
      simpa using hs3 c hc
    simp only [validate_stock_file, hne, hmiss, hs2, not_true, if_false]
    by_cases hall : ∀ r ∈ s.rows, labelOf r = none
    · have hb : s.rows.all (fun r => labelOf r = none) = true := by
        rw [List.all_eq_true]
        intro r hr
        simpa using hall r hr
      simp only [hb, if_true]
      simp [ValidationError.isNoUsableRows]
      exact hall
    · have hb : s.rows.all (fun r => labelOf r = none) = false := by
        rw [Bool.eq_false_iff]
        intro hcontra
        rw [List.all_eq_true] at hcontra
        exact hall (fun r hr => by simpa using hcontra r hr)
      simp [hb, hall, ValidationError.isNoUsableRows]

/-- Witness for the amended C7 at concrete report and stock tables. -/
theorem claim_c7_witness :
    (reportNoUsableFound.rows ≠ [] ∧
     (∀ c ∈ report_required_cols, c ∈ reportNoUsableFound.cols) ∧
     stockAllCols.rows ≠ [] ∧ "Label No" ∈ stockAllCols.cols ∧
     (∀ c ∈ stock_required_cols, c ∈ stockAllCols.cols)) ∧
    (((∃ e, validate_report_file reportNoUsableFound = .error e ∧ e.isNoUsableRows = true) ↔
      ((reportNoUsableFound.rows.filter
          (fun r => getCell r "Stock Menu" = some "Found")) = [] ∨
        ∀ r ∈ reportNoUsableFound.rows, labelOf r = none)) ∧
     ((∃ e, validate_stock_file stockAllCols = .error e ∧ e.isNoUsableRows = true) ↔
      ∀ r ∈ stockAllCols.rows, labelOf r = none)) :=
  ⟨⟨by decide, by decide, by decide, by decide, by decide⟩,
   claim_c7_amended_no_usable_rows reportNoUsableFound stockAllCols
     (by decide) (by decide) (by decide) (by decide) (by decide)⟩

/-- A stock table missing Label No together with every other required
column except Pcs. -/
def stockMissingSeveral : Table :=
  ⟨["Pcs"], [[("Pcs", some "1")]]⟩

/-- A report table missing three of the four required columns. -/
def reportOnlyStockMenu : Table :=
  ⟨["Stock Menu"], [[("Stock Menu", some "Found")]]⟩

/-- A stock table that has Label No but no other required column. -/
def stockOnlyLabel : Table :=
  ⟨["Label No"], [[("Label No", some "L1")]]⟩

/-- C8 counterexample: a stock table missing Label No as well as Item
Name (and more) is rejected with the error naming only Label No, so the
claim that every absent required column is reported fails. -/
theorem claim_c8_counterexample :
    validate_stock_file stockMissingSeveral = .error .missingLabelNo ∧
    "Item Name" ∉ stockMissingSeveral.cols ∧
    "Item Name" ∉ ValidationError.missingLabelNo.namedCols :=
  ⟨rfl, by decide, by decide⟩

/-- C8 amended: for nonempty report tables the validator aggregates every
absent required column into one MissingColumn error; for nonempty stock
tables, when Label No is absent the error names only Label No regardless
of other absent columns, and only when Label No is present are the
remaining absent required columns aggregated into one error. -/
theorem claim_c8_amended_missing_columns (t s : Table)
    (ht1 : t.rows ≠ []) (hs1 : s.rows ≠ []) :
    (report_required_cols.filter (fun c => c ∉ t.cols) ≠ [] →
      validate_report_file t =
        .error (.missingColumns (report_required_cols.filter (fun c => c ∉ t.cols)))) ∧
    ("Label No" ∉ s.cols → validate_stock_file s = .error .missingLabelNo) ∧
    ("Label No" ∈ s.cols → stock_required_cols.filter (fun c => c ∉ s.cols) ≠ [] →
      validate_stock_file s =
        .error (.missingColumns (stock_required_cols.filter (fun c => c ∉ s.cols)))) := by
  have hnet : t.rows.isEmpty = false := List.isEmpty_eq_false.mpr ht1
  have hnes : s.rows.isEmpty = false := List.isEmpty_eq_false.mpr hs1
  refine ⟨?_, ?_, ?_⟩
  · intro hm
    simp [validate_report_file, hnet, hm]
    intro hall
    exact absurd (List.filter_eq_nil_iff.mpr (fun c hc => by simpa using hall c hc)) hm
  · intro hL
    simp [validate_stock_file, hnes, hL]
  · intro hL hm
    simp [validate_stock_file, hnes, hL, hm]
    intro hall
    exact absurd (List.filter_eq_nil_iff.mpr (fun c hc => by simpa using hall c hc)) hm

/-- Witness for the amended C8 at concrete report and stock tables. -/
theorem claim_c8_witness :
    (reportOnlyStockMenu.rows ≠ [] ∧ stockOnlyLabel.rows ≠ [] ∧
     report_required_cols.filter (fun c => c ∉ reportOnlyStockMenu.cols) ≠ [] ∧
     "Label No" ∈ stockOnlyLabel.cols ∧
     stock_required_cols.filter (fun c => c ∉ stockOnlyLabel.cols) ≠ []) ∧
    validate_report_file reportOnlyStockMenu =
      .error (.missingColumns
        (report_required_cols.filter (fun c => c ∉ reportOnlyStockMenu.cols))) ∧
    validate_stock_file stockOnlyLabel =
      .error (.missingColumns
        (stock_required_cols.filter (fun c => c ∉ stockOnlyLabel.cols))) :=
  ⟨⟨by decide, by decide, by decide, by decide, by decide⟩,
   (claim_c8_amended_missing_columns reportOnlyStockMenu stockOnlyLabel
     (by decide) (by decide)).1 (by decide),
   (claim_c8_amended_missing_columns reportOnlyStockMenu stockOnlyLabel
     (by decide) (by decide)).2.2 (by decide) (by decide)⟩

end InventoryAudit
